import Mathlib

/-!
Verification development for the `cell-map` crate: a many-layer 2D cellular
map with a grid-to-parent coordinate transform, a slicing/iteration
framework, and a digital line traversal.

The crate's numeric code works on `f64`; it is modelled here over `ℚ` with
exact arithmetic, and a rotation angle is modelled by its (cosine, sine)
pair, which is exact for the quarter-turn rotations the repository's tests
exercise.  Array data is modelled as row-major lists.
-/

/-! ## Data model -/

/-- A dense 2D array, modelling `ndarray::Array2<T>`: `rows × cols` elements
stored in row-major order. -/
structure Array2 (α : Type) where
  rows : ℕ
  cols : ℕ
  elems : List α
  deriving DecidableEq, Repr

/-- The shape `(rows, cols)` of an array, as reported by `Array2::shape`. -/
def Array2.shape {α : Type} (a : Array2 α) : ℕ × ℕ := (a.rows, a.cols)

/-- Row-major element lookup, `None` outside the array. -/
def Array2.at? {α : Type} (a : Array2 α) (rc : ℕ × ℕ) : Option α :=
  if rc.1 < a.rows ∧ rc.2 < a.cols then a.elems[rc.1 * a.cols + rc.2]? else none

/-- Modelled from the spec: the `Bounds` value type of §3 (its defining
module `cell_map.rs` is missing from the sources; only its uses in
`error.rs`, `cell_map_file.rs` and the tests are present).  Per-axis
minimum (inclusive) and maximum (exclusive) cell indices; the exclusive
maximum is pinned by the in-repo tests, where `Bounds::new((0, 5), (0, 5))`
yields a 5×5 grid. -/
structure Bounds where
  x : ℤ × ℤ
  y : ℤ × ℤ
  deriving DecidableEq, Repr

/-- Number of cells `(x, y)` covered by the bounds. -/
def Bounds.numCells (b : Bounds) : ℕ × ℕ :=
  ((b.x.2 - b.x.1).toNat, (b.y.2 - b.y.1).toNat)

/-- The `ndarray` shape `(rows, cols)` of a layer with these bounds; rows
run along the `y` axis and columns along the `x` axis, as pinned by the
window-iterator test on a `Bounds::new((0, 5), (0, 6))` map. -/
def Bounds.shape (b : Bounds) : ℕ × ℕ := (b.numCells.2, b.numCells.1)

/-- The error enumeration of `error.rs` (`Error`, re-exported from the
crate root as `CellMapError`).  Payloads follow the Rust declaration, with
`f64` points as `ℚ × ℚ` and the untranslatable `std::io` / `serde_json`
payloads as strings. -/
inductive CellMapError where
  | windowLargerThanMap : ℕ × ℕ → ℕ × ℕ → CellMapError
  | positionOutsideMap : String → ℚ × ℚ → CellMapError
  | indexOutsideMap : ℤ × ℤ → CellMapError
  | wrongNumberOfLayers : ℕ → ℕ → CellMapError
  | layerWrongShape : ℕ × ℕ → ℕ × ℕ → CellMapError
  | ioError : String → CellMapError
  | jsonError : String → CellMapError
  | invalidBounds : Bounds → CellMapError
  deriving DecidableEq, Repr

deriving instance DecidableEq for Except

/-- Modelled from the spec: `Bounds::new`, which validates `min ≤ max` on
each axis and fails with `Error::InvalidBounds` otherwise (§3, §7). -/
def Bounds.new (x y : ℤ × ℤ) : Except CellMapError Bounds :=
  if x.1 ≤ x.2 ∧ y.1 ≤ y.2 then .ok ⟨x, y⟩ else .error (.invalidBounds ⟨x, y⟩)

/-- Modelled from the spec: `CellMapParams` in its current form, whose
field list is pinned by the (present) `cell_map_file.rs`: cell size, cell
bounds, rotation of the map in the parent frame (the `f64` angle
`rotation_in_parent_rad` modelled as its (cosine, sine) pair), position of
the map in the parent frame, and the cell boundary precision. -/
structure CellMapParams where
  cellSize : ℚ × ℚ
  cellBounds : Bounds
  rotationInParent : ℚ × ℚ
  positionInParent : ℚ × ℚ
  cellBoundaryPrecision : ℚ
  deriving DecidableEq, Repr

/-- Modelled from the spec: the default parameters (`..Default::default()`
in the tests).  Identity rotation, zero translation, and a small positive
default boundary precision, taken as `1e-10`: the spec requires only that
it is a non-negative epsilon (§3), and the boundary test demands it be
below `1e-6`. -/
def CellMapParams.default : CellMapParams :=
  { cellSize := (1, 1)
    cellBounds := ⟨(0, 0), (0, 0)⟩
    rotationInParent := (1, 0)
    positionInParent := (0, 0)
    cellBoundaryPrecision := 1 / 10000000000 }

/-! ## Coordinate transform

Modelled from the spec §4.1: the map owns a composed affine matrix (map
frame to parent frame) and its inverse, derived once from the params. -/

/-- An affine map of the plane: a 2×2 matrix with a translation column,
modelling the `nalgebra::Affine2<f64>` owned by the map metadata. -/
structure Affine2Q where
  m00 : ℚ
  m01 : ℚ
  m10 : ℚ
  m11 : ℚ
  t0 : ℚ
  t1 : ℚ
  deriving DecidableEq, Repr

/-- Apply an affine map to a point. -/
def Affine2Q.apply (m : Affine2Q) (p : ℚ × ℚ) : ℚ × ℚ :=
  (m.m00 * p.1 + m.m01 * p.2 + m.t0, m.m10 * p.1 + m.m11 * p.2 + m.t1)

/-- Modelled from the spec: the composed map-to-parent affine transform,
rotation followed by translation. -/
def toParent (params : CellMapParams) : Affine2Q :=
  let c := params.rotationInParent.1
  let s := params.rotationInParent.2
  { m00 := c, m01 := -s, m10 := s, m11 := c
    t0 := params.positionInParent.1, t1 := params.positionInParent.2 }

/-- Modelled from the spec: the cached inverse (parent-to-map) affine
transform — the rigid transform's inverse rotates by the opposite angle
after undoing the translation. -/
def fromParent (params : CellMapParams) : Affine2Q :=
  let c := params.rotationInParent.1
  let s := params.rotationInParent.2
  let t0 := params.positionInParent.1
  let t1 := params.positionInParent.2
  { m00 := c, m01 := s, m10 := -s, m11 := c
    t0 := -(c * t0 + s * t1), t1 := -(-s * t0 + c * t1) }

/-- Modelled from the spec §4.1: `position` maps the centre of the cell at
`index` — `index + 0.5` in grid units, scaled by `cell_size` — through the
affine transform.  Total: defined for any index. -/
def position (params : CellMapParams) (i : ℕ × ℕ) : ℚ × ℚ :=
  (toParent params).apply
    (((i.1 : ℚ) + 1 / 2) * params.cellSize.1, ((i.2 : ℚ) + 1 / 2) * params.cellSize.2)

/-- Modelled from the spec §4.1: the one-axis binning used by `index` —
divide the grid-local coordinate by the cell size, nudge up by the
boundary precision, and floor. -/
def bin (cs eps x : ℚ) : ℤ := ⌊x / cs + eps⌋

/-- Modelled from the spec §4.1: `index` inverse-transforms the point into
grid-local coordinates, bins each axis, and fails with
`Error::PositionOutsideMap` if the result falls outside the bounds. -/
def index (params : CellMapParams) (p : ℚ × ℚ) : Except CellMapError (ℕ × ℕ) :=
  let g := (fromParent params).apply p
  let eps := params.cellBoundaryPrecision
  let ix := bin params.cellSize.1 eps g.1
  let iy := bin params.cellSize.2 eps g.2
  let n := params.cellBounds.numCells
  if 0 ≤ ix ∧ ix < (n.1 : ℤ) ∧ 0 ≤ iy ∧ iy < (n.2 : ℤ) then
    .ok (ix.toNat, iy.toNat)
  else
    .error (.positionOutsideMap "position" p)

/-- The 10×10 unit-cell map of the coordinate tests in `tests.rs`: default
transform, cells of size 1. -/
def testParams10 : CellMapParams :=
  { CellMapParams.default with cellBounds := ⟨(0, 10), (0, 10)⟩ }

/-- The scaled, translated and 90°-rotated 10×10 map of the last coordinate
test in `tests.rs`: cells of size 0.1, translation (0.5, 0.5), rotation by
π/2 (cosine 0, sine 1). -/
def testParamsRot : CellMapParams :=
  { cellSize := (1 / 10, 1 / 10)
    cellBounds := ⟨(0, 10), (0, 10)⟩
    rotationInParent := (0, 1)
    positionInParent := (1 / 2, 1 / 2)
    cellBoundaryPrecision := 1 / 10000000000 }

/-! ## Line traversal

Modelled from the spec §4.4: the implementing module (`iterators/slicers.rs`)
is missing from the sources; §4.4's worked examples and its
direction-symmetry contract are normative (§9 notes the general tie-break
rule is under-specified beyond them). -/

/-- Modelled from the spec §4.4: the digital line walk in the positive
major (`x`) direction.  The starting cell is emitted, then for each unit
step along `x` the minor coordinate moves to `y0 + ⌊(k+1)·dy/dx⌋` (floor
division), and whenever the minor coordinate advances, the extra
minor-axis step is inserted at the previous column before the major-axis
step — the supercover-style rule pinned by the worked example
(1,1)→(4,2) ↦ (1,1),(2,1),(3,1),(3,2),(4,2). -/
def lineCoreX (x0 y0 : ℤ) (dx : ℕ) (dy : ℤ) : List (ℤ × ℤ) :=
  (x0, y0) :: (List.range dx).flatMap (fun k =>
    let yprev := y0 + Int.fdiv ((k : ℤ) * dy) (dx : ℤ)
    let ynew := y0 + Int.fdiv (((k : ℤ) + 1) * dy) (dx : ℤ)
    if ynew = yprev then [(x0 + (k : ℤ) + 1, ynew)]
    else [(x0 + (k : ℤ), ynew), (x0 + (k : ℤ) + 1, ynew)])

/-- Modelled from the spec §4.4: the inclusive digital-line index sequence
between two grid indices.  Horizontal, vertical and 45° lines yield the
straight run of indices with no duplicates; other slopes follow the
supercover-style `lineCoreX` walk, transposed when the `y` axis dominates,
and a walk against the major axis is the reverse of the opposite walk,
realising the spec's direction-symmetry contract. -/
def lineIdx (p q : ℤ × ℤ) : List (ℤ × ℤ) :=
  if (q.1 - p.1).natAbs = (q.2 - p.2).natAbs then
    (List.range ((q.1 - p.1).natAbs + 1)).map
      (fun k : ℕ => (p.1 + (k : ℤ) * (q.1 - p.1).sign, p.2 + (k : ℤ) * (q.2 - p.2).sign))
  else if (q.2 - p.2).natAbs < (q.1 - p.1).natAbs then
    if 0 < q.1 - p.1 then lineCoreX p.1 p.2 (q.1 - p.1).toNat (q.2 - p.2)
    else (lineCoreX q.1 q.2 (p.1 - q.1).toNat (p.2 - q.2)).reverse
  else
    if 0 < q.2 - p.2 then (lineCoreX p.2 p.1 (q.2 - p.2).toNat (q.1 - p.1)).map Prod.swap
    else ((lineCoreX q.2 q.1 (p.2 - q.2).toNat (p.1 - q.1)).map Prod.swap).reverse

/-- Modelled from the spec §4.4: `line_iter` converts both parent-frame
endpoints to grid indices with `index` (propagating the first
`PositionOutsideMap` error) and precomputes the digital line between them,
which then drives the iteration pipeline. -/
def lineIter (params : CellMapParams) (s e : ℚ × ℚ) :
    Except CellMapError (List (ℤ × ℤ)) :=
  match index params s, index params e with
  | .ok si, .ok ei => .ok (lineIdx ((si.1 : ℤ), (si.2 : ℤ)) ((ei.1 : ℤ), (ei.2 : ℤ)))
  | .error err, _ => .error err
  | .ok _, .error err => .error err

/-- The 6×6 unit-cell map of the line tests in `iterators/tests.rs`. -/
def testParams6 : CellMapParams :=
  { CellMapParams.default with cellBounds := ⟨(0, 6), (0, 6)⟩ }

/-! ## Iteration and slicing framework

Modelled from the spec §4.3: the implementing modules (`iterators/mod.rs`
and `iterators/slicers.rs`) are missing from the sources; only the
`Indexed` decorator, the old `cell-map-impl` constructors and the tests
are present.  The framework is modelled by the index sequences the spec
specifies — layer-major, then row-major over the cursor's valid range —
with read-only and mutable iteration sharing the same traversal. -/

/-- Modelled from the spec §4.3: layer selection — all layers (`none`),
or one layer / an explicit ordered subset, as a list of layer indices. -/
def selectedLayers (numLayers : ℕ) : Option (List ℕ) → List ℕ
  | none => List.range numLayers
  | some ls => ls

/-- Modelled from the spec §4.3: the row-major cell traversal of one
layer of a `rows × cols` grid. -/
def cellIndices (rows cols : ℕ) : List (ℕ × ℕ) :=
  (List.range rows).flatMap (fun r => (List.range cols).map (fun c => (r, c)))

/-- Modelled from the spec §4.3: the traversal of a cell iterator — each
selected layer's grid in row-major order, layer-major overall; the
mutable variant shares the same traversal. -/
def cellIterIndices (numLayers rows cols : ℕ) (filter : Option (List ℕ)) :
    List (ℕ × ℕ × ℕ) :=
  (selectedLayers numLayers filter).flatMap
    (fun l => (cellIndices rows cols).map (fun rc => (l, rc.1, rc.2)))

/-- Modelled from the spec §4.3: the row-major traversal of the interior
cells `[sy, rows-1-sy] × [sx, cols-1-sx]` that a window slicer's cursor
visits in one layer. -/
def windowIndices (rows cols sy sx : ℕ) : List (ℕ × ℕ) :=
  (List.range (rows - 2 * sy)).flatMap
    (fun r => (List.range (cols - 2 * sx)).map (fun c => (r + sy, c + sx)))

/-- Modelled from the spec §4.3: the (layer, row, col) traversal of a
window iterator over the selected layers. -/
def windowIterIndices (numLayers rows cols sy sx : ℕ) (filter : Option (List ℕ)) :
    List (ℕ × ℕ × ℕ) :=
  (selectedLayers numLayers filter).flatMap
    (fun l => (windowIndices rows cols sy sx).map (fun rc => (l, rc.1, rc.2)))

/-- Modelled from the spec §4.3 and the `window_iter` constructor shown in
`cell-map-impl/src/cell_map.rs`: building a window iterator fails with
`Error::WindowLargerThanMap` when `2*semi_window_size+1` exceeds the
grid's extent on either axis, and otherwise starts the cursor at
`(layer 0, row semi.y, col semi.x)`. -/
def windowIterNew (numX numY : ℕ) (sw : ℕ × ℕ) :
    Except CellMapError (ℕ × ℕ × ℕ) :=
  if 2 * sw.1 + 1 > numX ∨ 2 * sw.2 + 1 > numY then
    .error (.windowLargerThanMap (2 * sw.1 + 1, 2 * sw.2 + 1) (numX, numY))
  else
    .ok (0, sw.2, sw.1)

/-- The sub-view of shape `(2*sy+1) × (2*sx+1)` centred on cell `(r, c)`,
modelling the `ndarray` window slice yielded by the window slicer. -/
def Array2.window {α : Type} [Inhabited α] (a : Array2 α) (r c sy sx : ℕ) : Array2 α :=
  { rows := 2 * sy + 1
    cols := 2 * sx + 1
    elems := (List.range (2 * sy + 1)).flatMap
      (fun dr => (List.range (2 * sx + 1)).map
        (fun dc => a.elems.getD ((r - sy + dr) * a.cols + (c - sx + dc)) default)) }

/-- Modelled from the spec §4.3: the items yielded by a window iterator —
for each selected layer, the window centred on each interior cell in
row-major order. -/
def windowIterItems {α : Type} [Inhabited α] (data : List (Array2 α))
    (rows cols sy sx : ℕ) (filter : Option (List ℕ)) : List (Array2 α) :=
  (selectedLayers data.length filter).flatMap
    (fun l => (windowIndices rows cols sy sx).map
      (fun rc => (data.getD l ⟨0, 0, []⟩).window rc.1 rc.2 sy sx))

/-- One 6-row × 5-column test layer (the `Bounds::new((0, 5), (0, 6))` map
of the window test), filled with ones. -/
def testLayer65 : Array2 ℕ := ⟨6, 5, List.replicate 30 1⟩

/-! ## The Slicer capability and the Indexed decorator

The `Slicer` trait itself is declared in the missing `iterators/mod.rs`
and is modelled as a record of operations over an explicit cursor state.
The `Indexed` decorator of `iterators/indexed.rs` is present in the
sources and is embedded faithfully — including the `unwrap` panic inside
`slice`/`slice_mut`, modelled in an `Except String` panic monad. -/

/-- The `Slicer` trait as a record: `slice`/`slice_mut` produce an item
from the backing array at the cursor (or nothing), `advance` moves the
cursor, `index` reports it, `reset` restarts it with an optional layer
override. -/
structure SlicerOps (σ L α it itm : Type) where
  slice : σ → Array2 α → Option it
  sliceMut : σ → Array2 α → Option itm
  advance : σ → σ
  index : σ → Option (ℕ × ℕ)
  reset : σ → Option L → σ

/-- The state of an `Indexed` wrapper (`indexed.rs` lines 20–29): the
wrapped slicer's state plus the current layer. -/
structure IndexedState (σ L : Type) where
  slicer : σ
  layer : L

/-- `Indexed::slice` (`indexed.rs` lines 58–62): propagate the wrapped
slicer's `None` (the `?` operator), otherwise pair the item with the
current layer and the wrapped slicer's `index()`, which is `unwrap`ped —
a panic, modelled as `Except.error`, when it is `None`. -/
def indexedSlice {σ L α it itm : Type} (S : SlicerOps σ L α it itm)
    (s : IndexedState σ L) (data : Array2 α) :
    Except String (Option ((L × (ℕ × ℕ)) × it)) :=
  match S.slice s.slicer data with
  | none => .ok none
  | some item =>
    match S.index s.slicer with
    | some i => .ok (some ((s.layer, i), item))
    | none => .error "called unwrap on a none value"

/-- `Indexed::slice_mut` (`indexed.rs` lines 64–68): the same shape over
the mutable item type. -/
def indexedSliceMut {σ L α it itm : Type} (S : SlicerOps σ L α it itm)
    (s : IndexedState σ L) (data : Array2 α) :
    Except String (Option ((L × (ℕ × ℕ)) × itm)) :=
  match S.sliceMut s.slicer data with
  | none => .ok none
  | some item =>
    match S.index s.slicer with
    | some i => .ok (some ((s.layer, i), item))
    | none => .error "called unwrap on a none value"

/-- `Indexed::advance` (`indexed.rs` lines 70–72): delegate. -/
def indexedAdvance {σ L α it itm : Type} (S : SlicerOps σ L α it itm)
    (s : IndexedState σ L) : IndexedState σ L :=
  { s with slicer := S.advance s.slicer }

/-- `Indexed::index` (`indexed.rs` lines 74–76): delegate. -/
def indexedIndex {σ L α it itm : Type} (S : SlicerOps σ L α it itm)
    (s : IndexedState σ L) : Option (ℕ × ℕ) :=
  S.index s.slicer

/-- `Indexed::reset` (`indexed.rs` lines 78–84): store the overriding
layer when one is given, then delegate. -/
def indexedReset {σ L α it itm : Type} (S : SlicerOps σ L α it itm)
    (s : IndexedState σ L) (layer : Option L) : IndexedState σ L :=
  { slicer := S.reset s.slicer layer
    layer := match layer with
      | some l => l
      | none => s.layer }

/-- Modelled from the spec §4.3: the single-cell slicer's cursor state —
the grid extent and the current (row, col). -/
structure CellsState where
  rows : ℕ
  cols : ℕ
  cur : ℕ × ℕ
  deriving DecidableEq, Repr

/-- Modelled from the spec §4.3: the single-cell slicer — `slice` and
`index` answer while the cursor is inside the grid and `None` past the
end, `advance` moves row-major, `reset` restarts at the origin.  It keeps
the invariant that `index()` is `Some` whenever `slice` is. -/
def cellsOps (L α : Type) : SlicerOps CellsState L α α α :=
  { slice := fun s a => if s.cur.1 < s.rows ∧ s.cur.2 < s.cols then a.at? s.cur else none
    sliceMut := fun s a => if s.cur.1 < s.rows ∧ s.cur.2 < s.cols then a.at? s.cur else none
    advance := fun s =>
      if s.cur.2 + 1 < s.cols then { s with cur := (s.cur.1, s.cur.2 + 1) }
      else { s with cur := (s.cur.1 + 1, 0) }
    index := fun s => if s.cur.1 < s.rows ∧ s.cur.2 < s.cols then some s.cur else none
    reset := fun s _ => { s with cur := (0, 0) } }

/-! ## CellMap and the snapshot file -/

/-- Modelled from the spec §3: a cell map — one dense layer per layer
index plus the construction params (the metadata the map caches is
derived from the params and modelled by the accessor functions above:
`Bounds.shape`, `toParent`, `fromParent`). -/
structure CellMap (α : Type) where
  data : List (Array2 α)
  params : CellMapParams
  deriving DecidableEq, Repr

/-- `CellMapFile` (`cell_map_file.rs` lines 20–54, present): the
serialisable snapshot record. -/
structure CellMapFile (α : Type) where
  numLayers : ℕ
  layers : List ℕ
  cellBounds : Bounds
  cellSize : ℚ × ℚ
  cellBoundaryPrecision : ℚ
  fromParentAngle : ℚ × ℚ
  fromParentTranslation : ℚ × ℚ
  fromParentMatrix : Affine2Q
  data : List (Array2 α)
  deriving DecidableEq, Repr

/-- `CellMapFile::new` (`cell_map_file.rs` lines 83–95, present): record
the layer count and order, the map's bounds, cell size and boundary
precision, the rotation and translation from the params, the inverse
(parent-to-map) affine matrix, and clone the data. -/
def CellMapFile.new {α : Type} (numLayers : ℕ) (m : CellMap α) : CellMapFile α :=
  { numLayers := numLayers
    layers := List.range numLayers
    cellBounds := m.params.cellBounds
    cellSize := m.params.cellSize
    cellBoundaryPrecision := m.params.cellBoundaryPrecision
    fromParentAngle := m.params.rotationInParent
    fromParentTranslation := m.params.positionInParent
    fromParentMatrix := fromParent m.params
    data := m.data }

/-- Modelled from the spec §4.2: `new_from_data` validates the layer
count (else `Error::WrongNumberOfLayers`) and every layer's shape
against the bounds (else `Error::LayerWrongShape`), then builds the map. -/
def newFromData {α : Type} (numLayers : ℕ) (params : CellMapParams)
    (data : List (Array2 α)) : Except CellMapError (CellMap α) :=
  if data.length ≠ numLayers then
    .error (.wrongNumberOfLayers numLayers data.length)
  else
    match data.find? (fun a => decide (a.shape ≠ params.cellBounds.shape)) with
    | some a => .error (.layerWrongShape params.cellBounds.shape a.shape)
    | none => .ok ⟨data, params⟩

/-- `CellMapFile::into_cell_map` (`cell_map_file.rs` lines 65–75,
present): rebuild the params from the stored fields and hand the data to
`new_from_data`. -/
def intoCellMap {α : Type} (numLayers : ℕ) (f : CellMapFile α) :
    Except CellMapError (CellMap α) :=
  newFromData numLayers
    { cellSize := f.cellSize
      cellBounds := f.cellBounds
      rotationInParent := f.fromParentAngle
      positionInParent := f.fromParentTranslation
      cellBoundaryPrecision := f.cellBoundaryPrecision }
    f.data

/-! ## Theorems -/

/-- Inverting the composed affine transform: for a unit rotation pair the
parent-to-map transform undoes the map-to-parent transform exactly. -/
theorem fromParent_toParent (params : CellMapParams)
    (hrot : params.rotationInParent.1 ^ 2 + params.rotationInParent.2 ^ 2 = 1)
    (p : ℚ × ℚ) :
    (fromParent params).apply ((toParent params).apply p) = p := by
  obtain ⟨p1, p2⟩ := p
  simp only [fromParent, toParent, Affine2Q.apply, Prod.mk.injEq]
  constructor
  · linear_combination p1 * hrot
  · linear_combination p2 * hrot

/-- Binning the centre of a cell recovers the cell index. -/
theorem bin_centre (cs eps : ℚ) (i : ℕ) (hcs : 0 < cs) (h0 : 0 ≤ eps)
    (h1 : eps < 1 / 2) :
    bin cs eps (((i : ℚ) + 1 / 2) * cs) = (i : ℤ) := by
  unfold bin
  rw [mul_div_cancel_right₀ _ (ne_of_gt hcs)]
  rw [Int.floor_eq_iff]
  constructor
  · push_cast
    linarith
  · push_cast
    linarith

/-- Claim C1: coordinate-transform round trip.  For every index `i` inside
the map's bounds, converting `i` to a parent-frame position with `position`
and converting that position back with `index` returns `ok i`, for any
positive cell sizes, any translation, and any rotation whose (cosine,
sine) pair lies on the unit circle — covering the identity and every
90°-rotation — provided the boundary precision lies in `[0, 1/2)` (the
default `1e-10` does). -/
theorem c1_round_trip (params : CellMapParams) (i : ℕ × ℕ)
    (hcs1 : 0 < params.cellSize.1) (hcs2 : 0 < params.cellSize.2)
    (hrot : params.rotationInParent.1 ^ 2 + params.rotationInParent.2 ^ 2 = 1)
    (heps0 : 0 ≤ params.cellBoundaryPrecision)
    (heps1 : params.cellBoundaryPrecision < 1 / 2)
    (hx : i.1 < params.cellBounds.numCells.1)
    (hy : i.2 < params.cellBounds.numCells.2) :
    index params (position params i) = .ok i := by
  unfold index position
  rw [fromParent_toParent params hrot]
  have h1 := bin_centre params.cellSize.1 params.cellBoundaryPrecision i.1 hcs1 heps0 heps1
  have h2 := bin_centre params.cellSize.2 params.cellBoundaryPrecision i.2 hcs2 heps0 heps1
  simp only [h1, h2]
  rw [if_pos]
  · simp
  · exact ⟨Int.natCast_nonneg _, by exact_mod_cast hx, Int.natCast_nonneg _,
      by exact_mod_cast hy⟩

/-- Witness for C1 at a concrete input: the scaled + translated + 90°
rotated test map, index (2, 7). -/
theorem c1_round_trip_witness :
    ((0 : ℚ) < testParamsRot.cellSize.1 ∧ (0 : ℚ) < testParamsRot.cellSize.2 ∧
      testParamsRot.rotationInParent.1 ^ 2 + testParamsRot.rotationInParent.2 ^ 2 = 1 ∧
      (0 : ℚ) ≤ testParamsRot.cellBoundaryPrecision ∧
      testParamsRot.cellBoundaryPrecision < 1 / 2 ∧
      2 < testParamsRot.cellBounds.numCells.1 ∧ 7 < testParamsRot.cellBounds.numCells.2) ∧
    index testParamsRot (position testParamsRot (2, 7)) = .ok (2, 7) := by
  refine ⟨⟨?_, ?_, ?_, ?_, ?_, ?_, ?_⟩, ?_⟩
  · norm_num [testParamsRot]
  · norm_num [testParamsRot]
  · norm_num [testParamsRot]
  · norm_num [testParamsRot]
  · norm_num [testParamsRot]
  · norm_num [testParamsRot, Bounds.numCells]
  · norm_num [testParamsRot, Bounds.numCells]
  · exact c1_round_trip testParamsRot (2, 7)
      (by norm_num [testParamsRot]) (by norm_num [testParamsRot])
      (by norm_num [testParamsRot]) (by norm_num [testParamsRot])
      (by norm_num [testParamsRot])
      (by norm_num [testParamsRot, Bounds.numCells])
      (by norm_num [testParamsRot, Bounds.numCells])

/-- Claim C4: boundary rounding of `index`.  On the 10×10 unit-cell test
map with the default boundary precision, `index (2.6, 3.999999) = ok (2, 3)`
while `index (2.6, 4.0) = ok (2, 4)`; and in general a coordinate within
`precision * cell_size` below a cell edge bins to the higher index — the
rounding boundary is exclusive strictly below that band and inclusive at
the edge itself. -/
theorem c4_boundary_rounding :
    index testParams10 (13 / 5, 3999999 / 1000000) = .ok (2, 3) ∧
    index testParams10 (13 / 5, 4) = .ok (2, 4) ∧
    (∀ cs eps x : ℚ, ∀ k : ℤ, 0 < cs → 0 ≤ eps → eps < 1 →
      (((k : ℚ) - eps) * cs ≤ x → x < (k : ℚ) * cs → bin cs eps x = k) ∧
      (x = (k : ℚ) * cs → bin cs eps x = k) ∧
      (x < ((k : ℚ) - eps) * cs → bin cs eps x < k)) := by
  refine ⟨?_, ?_, ?_⟩
  · simp only [index, bin, fromParent, Affine2Q.apply, testParams10, CellMapParams.default,
      Bounds.numCells]
    norm_num
    decide
  · simp only [index, bin, fromParent, Affine2Q.apply, testParams10, CellMapParams.default,
      Bounds.numCells]
    norm_num
    decide
  · intro cs eps x k hcs heps0 heps1
    have hne : cs ≠ 0 := ne_of_gt hcs
    refine ⟨?_, ?_, ?_⟩
    · intro hlo hhi
      have hlo' : (k : ℚ) - eps ≤ x / cs := (le_div_iff₀ hcs).mpr hlo
      have hhi' : x / cs < (k : ℚ) := (div_lt_iff₀ hcs).mpr hhi
      rw [bin, Int.floor_eq_iff]
      constructor
      · linarith
      · linarith
    · intro hx
      subst hx
      rw [bin, mul_div_cancel_right₀ _ hne, Int.floor_eq_iff]
      constructor
      · linarith
      · linarith
    · intro hlt
      have hlt' : x / cs < (k : ℚ) - eps := (div_lt_iff₀ hcs).mpr hlt
      rw [bin, Int.floor_lt]
      linarith

/-- Witness for C4's general conjunct at a concrete input: cell size 1,
precision 1/100, boundary at 4. -/
theorem c4_boundary_rounding_witness :
    ((0 : ℚ) < 1 ∧ (0 : ℚ) ≤ 1 / 100 ∧ (1 / 100 : ℚ) < 1) ∧
    bin 1 (1 / 100) 4 = 4 ∧ bin 1 (1 / 100) (39 / 10) < 4 := by
  refine ⟨⟨by norm_num, by norm_num, by norm_num⟩, ?_, ?_⟩
  · exact (c4_boundary_rounding.2.2 1 (1 / 100) 4 4 (by norm_num) (by norm_num)
      (by norm_num)).2.1 (by norm_num)
  · exact (c4_boundary_rounding.2.2 1 (1 / 100) (39 / 10) 4 (by norm_num) (by norm_num)
      (by norm_num)).2.2 (by norm_num)

/-- Claim C8: totality and value of `position`.  `position` is a total
function: defined for every index, inside the bounds or not, with no
failure mode, and it returns the centre of the indexed cell — `index + 0.5`
in grid units, scaled per axis by the cell size — rotated and translated
into the parent frame; concretely, with unit cells and the identity
transform, `position (0, 0) = (0.5, 0.5)`. -/
theorem c8_position_total :
    (∀ (params : CellMapParams) (i : ℕ × ℕ),
      position params i =
        (params.rotationInParent.1 * (((i.1 : ℚ) + 1 / 2) * params.cellSize.1)
            - params.rotationInParent.2 * (((i.2 : ℚ) + 1 / 2) * params.cellSize.2)
            + params.positionInParent.1,
          params.rotationInParent.2 * (((i.1 : ℚ) + 1 / 2) * params.cellSize.1)
            + params.rotationInParent.1 * (((i.2 : ℚ) + 1 / 2) * params.cellSize.2)
            + params.positionInParent.2)) ∧
    position testParams10 (0, 0) = (1 / 2, 1 / 2) := by
  constructor
  · intro params i
    simp only [position, toParent, Affine2Q.apply, Prod.mk.injEq]
    exact ⟨by ring_nf, by ring_nf⟩
  · simp only [position, toParent, Affine2Q.apply, testParams10, CellMapParams.default,
      Prod.mk.injEq]
    norm_num


/-- Evaluating `index` on the first endpoint of the line tests. -/
theorem index_line_start : index testParams6 (11 / 10, 11 / 10) = .ok (1, 1) := by
  simp only [index, bin, fromParent, Affine2Q.apply, testParams6, CellMapParams.default,
    Bounds.numCells]
  norm_num

/-- Evaluating `index` on the off-diagonal endpoint of the line tests. -/
theorem index_line_diag : index testParams6 (43 / 10, 21 / 10) = .ok (4, 2) := by
  simp only [index, bin, fromParent, Affine2Q.apply, testParams6, CellMapParams.default,
    Bounds.numCells]
  norm_num
  all_goals decide

/-- Evaluating `index` on the horizontal endpoint of the line tests. -/
theorem index_line_horiz : index testParams6 (33 / 10, 11 / 10) = .ok (3, 1) := by
  simp only [index, bin, fromParent, Affine2Q.apply, testParams6, CellMapParams.default,
    Bounds.numCells]
  norm_num
  all_goals decide

/-- Claim C2: line-traversal supercover path.  Through the full `line_iter`
pipeline on the 6×6 unit-cell test map, the off-diagonal line between the
cells at grid indices (1,1) and (4,2) yields exactly
(1,1),(2,1),(3,1),(3,2),(4,2) — the minor-axis step is inserted before the
final major-axis step — and the pure-horizontal line between (1,1) and
(3,1) yields exactly (1,1),(2,1),(3,1), with no duplicates. -/
theorem c2_line_supercover :
    lineIter testParams6 (11 / 10, 11 / 10) (43 / 10, 21 / 10) =
      .ok [(1, 1), (2, 1), (3, 1), (3, 2), (4, 2)] ∧
    lineIter testParams6 (11 / 10, 11 / 10) (33 / 10, 11 / 10) =
      .ok [(1, 1), (2, 1), (3, 1)] ∧
    (lineIdx (1, 1) (4, 2)).Nodup ∧ (lineIdx (1, 1) (3, 1)).Nodup := by
  refine ⟨?_, ?_, by decide, by decide⟩
  · unfold lineIter
    rw [index_line_start, index_line_diag]
    decide
  · unfold lineIter
    rw [index_line_start, index_line_horiz]
    decide

/-- A mapped range equals the reverse of another mapped range when the
entries match up end-to-end. -/
theorem map_range_eq_reverse {α : Type} (n : ℕ) (f g : ℕ → α)
    (h : ∀ k, k ≤ n → g k = f (n - k)) :
    (List.range (n + 1)).map g = ((List.range (n + 1)).map f).reverse := by
  apply List.ext_getElem
  · simp
  · intro i h1 h2
    simp only [List.length_map, List.length_range] at h1
    simp only [List.getElem_map, List.getElem_range, List.getElem_reverse, List.length_map,
      List.length_range]
    rw [h i (by omega)]
    congr 1

/-- One axis of the reversed straight-line walk. -/
theorem axis_rev (a b : ℤ) (n k : ℕ) (hn : (b - a).natAbs = n) (hk : k ≤ n) :
    b + (k : ℤ) * (-(b - a)).sign = a + ((n - k : ℕ) : ℤ) * (b - a).sign := by
  have hs : b = a + (n : ℤ) * (b - a).sign := by
    have h1 : (b - a).sign * ((b - a).natAbs : ℤ) = b - a := Int.sign_mul_natAbs _
    rw [hn] at h1
    linarith [h1, mul_comm (b - a).sign (n : ℤ)]
  rw [Int.sign_neg, Nat.cast_sub hk]
  linear_combination hs

/-- Claim C3: line-traversal direction symmetry.  For every pair of grid
endpoints, the digital line from end to start is exactly the reverse of
the line from start to end; concretely, `line_iter` from the cell at (4,2)
back to (1,1) yields (4,2),(3,2),(3,1),(2,1),(1,1), the exact reverse of
the forward path. -/
theorem c3_line_reverse :
    (∀ p q : ℤ × ℤ, lineIdx q p = (lineIdx p q).reverse) ∧
    lineIter testParams6 (43 / 10, 21 / 10) (11 / 10, 11 / 10) =
      .ok [(4, 2), (3, 2), (3, 1), (2, 1), (1, 1)] := by
  constructor
  · intro p q
    unfold lineIdx
    have e1 : p.1 - q.1 = -(q.1 - p.1) := by ring
    have e2 : p.2 - q.2 = -(q.2 - p.2) := by ring
    rw [e1, e2]
    simp only [Int.natAbs_neg]
    rcases lt_trichotomy ((q.2 - p.2).natAbs) ((q.1 - p.1).natAbs) with hcmp | hcmp | hcmp
    · -- x-dominant: q.1 ≠ p.1
      rcases lt_trichotomy (q.1 - p.1) 0 with hneg | hzero | hpos
      · rw [if_neg (by omega), if_pos hcmp, if_pos (by omega), if_neg (by omega),
          if_pos hcmp, if_neg (by omega), List.reverse_reverse]
      · omega
      · rw [if_neg (by omega), if_pos hcmp, if_neg (by omega), if_neg (by omega),
          if_pos hcmp, if_pos hpos]
    · -- diagonal (or equal endpoints)
      rw [if_pos hcmp.symm, if_pos hcmp.symm]
      apply map_range_eq_reverse
      intro k hk
      have hx := axis_rev p.1 q.1 ((q.1 - p.1).natAbs) k rfl (by omega)
      have hy := axis_rev p.2 q.2 ((q.1 - p.1).natAbs) k (by omega) (by omega)
      rw [Prod.mk.injEq]
      exact ⟨hx, hy⟩
    · -- y-dominant: q.2 ≠ p.2
      rcases lt_trichotomy (q.2 - p.2) 0 with hneg | hzero | hpos
      · rw [if_neg (by omega), if_neg (by omega), if_pos (by omega), if_neg (by omega),
          if_neg (by omega), if_neg (by omega), List.reverse_reverse]
      · omega
      · rw [if_neg (by omega), if_neg (by omega), if_neg (by omega), if_neg (by omega),
          if_neg (by omega), if_pos hpos]
  · unfold lineIter
    rw [index_line_start, index_line_diag]
    decide

/-- Claim C5: window-iterator construction failure.  Construction fails —
and fails with `Error::WindowLargerThanMap` — exactly when
`2*semi_window_size+1` exceeds the grid's extent on either axis, and
succeeds otherwise (the only construction-time failure); on a 5×5 grid,
semi-extent (3,3) fails and semi-extent (2,2) succeeds. -/
theorem c5_window_construction :
    (∀ (numX numY : ℕ) (sw : ℕ × ℕ),
      windowIterNew numX numY sw =
          .error (.windowLargerThanMap (2 * sw.1 + 1, 2 * sw.2 + 1) (numX, numY)) ↔
        (numX < 2 * sw.1 + 1 ∨ numY < 2 * sw.2 + 1)) ∧
    (∀ (numX numY : ℕ) (sw : ℕ × ℕ),
      (windowIterNew numX numY sw).isOk = true ↔
        (2 * sw.1 + 1 ≤ numX ∧ 2 * sw.2 + 1 ≤ numY)) ∧
    (windowIterNew 5 5 (3, 3)).isOk = false ∧
    (windowIterNew 5 5 (2, 2)).isOk = true := by
  refine ⟨?_, ?_, by decide, by decide⟩
  · intro numX numY sw
    unfold windowIterNew
    by_cases h : 2 * sw.1 + 1 > numX ∨ 2 * sw.2 + 1 > numY
    · rw [if_pos h]
      constructor
      · intro _
        omega
      · intro _
        rfl
    · rw [if_neg h]
      constructor
      · intro hc
        exact absurd hc (by simp)
      · intro hc
        omega
  · intro numX numY sw
    unfold windowIterNew
    by_cases h : 2 * sw.1 + 1 > numX ∨ 2 * sw.2 + 1 > numY
    · rw [if_pos h]
      constructor
      · intro hc
        simp [Except.isOk, Except.toBool] at hc
      · intro hc
        exact absurd h (by omega)
    · rw [if_neg h]
      constructor
      · intro _
        omega
      · intro _
        rfl

/-- Length of a flat map whose pieces all have one length. -/
theorem length_flatMap_const {α β : Type} (l : List α) (f : α → List β) (m : ℕ)
    (h : ∀ a ∈ l, (f a).length = m) : (l.flatMap f).length = l.length * m := by
  induction l with
  | nil => simp
  | cons a t ih =>
    simp only [List.flatMap_cons, List.length_append, List.length_cons]
    rw [h a (by simp), ih (fun b hb => h b (by simp [hb]))]
    ring

/-- The per-layer length of the window traversal. -/
theorem windowIndices_length (rows cols sy sx : ℕ) :
    (windowIndices rows cols sy sx).length = (rows - 2 * sy) * (cols - 2 * sx) := by
  unfold windowIndices
  rw [length_flatMap_const _ _ (cols - 2 * sx) (by intro a _; simp)]
  simp

/-- Claim C6: iteration counts.  On a 5×5 grid with 3 layers, full cell
iteration yields 75 items (the mutable variant shares the same
traversal), one layer yields 25, a two-layer subset yields 50; a window
iterator with semi-extent (1,1) yields 27 items, with (2,2) yields 3; in
general a window iterator yields (width-2·sw.x)·(height-2·sw.y)·layers
items. -/
theorem c6_iteration_counts :
    (cellIterIndices 3 5 5 none).length = 75 ∧
    (cellIterIndices 3 5 5 (some [0])).length = 25 ∧
    (cellIterIndices 3 5 5 (some [0, 2])).length = 50 ∧
    (windowIterIndices 3 5 5 1 1 none).length = 27 ∧
    (windowIterIndices 3 5 5 2 2 none).length = 3 ∧
    (∀ (numLayers rows cols sy sx : ℕ) (filter : Option (List ℕ)),
      (windowIterIndices numLayers rows cols sy sx filter).length =
        (cols - 2 * sx) * (rows - 2 * sy) * (selectedLayers numLayers filter).length) := by
  refine ⟨by decide, by decide, by decide, by decide, by decide, ?_⟩
  intro numLayers rows cols sy sx filter
  unfold windowIterIndices
  rw [length_flatMap_const _ _ ((rows - 2 * sy) * (cols - 2 * sx))
    (by intro a _; simp [windowIndices_length])]
  ring

/-- An initial-segment range filtered from `a` up. -/
theorem range_filter_ge (a m : ℕ) :
    (List.range (a + m)).filter (fun v => decide (a ≤ v)) =
      (List.range m).map (· + a) := by
  induction m with
  | zero =>
    simp only [Nat.add_zero, List.range_zero, List.map_nil]
    rw [List.filter_eq_nil_iff]
    intro v hv
    simp only [List.mem_range] at hv
    simp only [decide_eq_true_eq]
    omega
  | succ m ih =>
    rw [Nat.add_succ, List.range_succ, List.filter_append, ih, List.range_succ,
      List.map_append]
    congr 1
    simp [Nat.add_comm a m]

/-- A range filtered to the interval `[a, b)` with `b` within range. -/
theorem range_filter_between (N a b : ℕ) (hbN : b ≤ N) :
    (List.range N).filter (fun v => decide (a ≤ v ∧ v < b)) =
      (List.range (b - a)).map (· + a) := by
  obtain ⟨k, rfl⟩ : ∃ k, N = b + k := ⟨N - b, by omega⟩
  clear hbN
  induction k with
  | zero =>
    rw [Nat.add_zero]
    rcases Nat.le_total a b with hab | hba
    · obtain ⟨m, rfl⟩ : ∃ m, b = a + m := ⟨b - a, by omega⟩
      have hma : a + m - a = m := by omega
      rw [hma]
      have hcong : (List.range (a + m)).filter (fun v => decide (a ≤ v ∧ v < a + m)) =
          (List.range (a + m)).filter (fun v => decide (a ≤ v)) := by
        apply List.filter_congr
        intro v hv
        simp only [List.mem_range] at hv
        rw [decide_eq_decide]
        omega
      rw [hcong, range_filter_ge]
    · have hz : b - a = 0 := by omega
      rw [hz]
      simp only [List.range_zero, List.map_nil]
      rw [List.filter_eq_nil_iff]
      intro v hv
      simp only [List.mem_range] at hv
      simp only [decide_eq_true_eq]
      omega
  | succ k ih =>
    rw [Nat.add_succ, List.range_succ, List.filter_append, ih]
    have h0 : List.filter (fun v => decide (a ≤ v ∧ v < b)) [b + k] = [] := by
      rw [List.filter_eq_nil_iff]
      intro x hx
      simp only [List.mem_singleton] at hx
      subst hx
      simp only [decide_eq_true_eq]
      omega
    rw [h0, List.append_nil]

/-- A flat map that drops pieces according to a Boolean test. -/
theorem flatMap_ite_eq_filter {α β : Type} (l : List α) (q : α → Bool) (h : α → List β) :
    (l.flatMap (fun a => if q a then h a else [])) = (l.filter q).flatMap h := by
  induction l with
  | nil => rfl
  | cons a t ih =>
    by_cases hq : q a
    · simp only [List.flatMap_cons, List.filter_cons, hq, if_pos, ih]
    · simp only [List.flatMap_cons, List.filter_cons, hq, ih]
      simp [hq]

/-- A filter pushed inside a flat map. -/
theorem filter_flatMap_inner {α β : Type} (l : List α) (f : α → List β) (p : β → Bool) :
    (l.flatMap f).filter p = l.flatMap (fun a => (f a).filter p) := by
  induction l with
  | nil => rfl
  | cons a t ih => simp [List.flatMap_cons, List.filter_append, ih]

/-- The window cursor's traversal is exactly the row-major cell traversal
restricted to the interior cells — the outermost ring of half-window
width is skipped, and the order of the remaining cells is untouched. -/
theorem windowIndices_eq_filter (rows cols sy sx : ℕ) :
    windowIndices rows cols sy sx =
      (cellIndices rows cols).filter
        (fun rc => decide (sy ≤ rc.1 ∧ rc.1 + sy < rows ∧ sx ≤ rc.2 ∧ rc.2 + sx < cols)) := by
  have hinner : ∀ r : ℕ,
      List.filter
          (fun rc : ℕ × ℕ => decide (sy ≤ rc.1 ∧ rc.1 + sy < rows ∧ sx ≤ rc.2 ∧ rc.2 + sx < cols))
          ((List.range cols).map (fun c => (r, c))) =
        if decide (sy ≤ r ∧ r + sy < rows) then
          (List.range (cols - sx - sx)).map (fun c => (r, c + sx)) else [] := by
    intro r
    rw [List.filter_map]
    by_cases hr : sy ≤ r ∧ r + sy < rows
    · rw [if_pos (by simpa using hr)]
      have hcong : (List.range cols).filter
            ((fun rc : ℕ × ℕ =>
                decide (sy ≤ rc.1 ∧ rc.1 + sy < rows ∧ sx ≤ rc.2 ∧ rc.2 + sx < cols)) ∘
              (fun c => (r, c))) =
          (List.range cols).filter (fun v => decide (sx ≤ v ∧ v < cols - sx)) := by
        apply List.filter_congr
        intro c hc
        simp only [Function.comp_apply]
        rw [decide_eq_decide]
        omega
      rw [hcong, range_filter_between cols sx (cols - sx) (Nat.sub_le _ _), List.map_map]
      rfl
    · rw [if_neg (by simpa using hr)]
      have hnil : (List.range cols).filter
            ((fun rc : ℕ × ℕ =>
                decide (sy ≤ rc.1 ∧ rc.1 + sy < rows ∧ sx ≤ rc.2 ∧ rc.2 + sx < cols)) ∘
              (fun c => (r, c))) = [] := by
        rw [List.filter_eq_nil_iff]
        intro c hc
        simp only [Function.comp_apply, decide_eq_true_eq]
        omega
      rw [hnil]
      rfl
  unfold windowIndices cellIndices
  rw [filter_flatMap_inner]
  simp only [hinner]
  rw [flatMap_ite_eq_filter]
  have hrow : (List.range rows).filter (fun r => decide (sy ≤ r ∧ r + sy < rows)) =
      (List.range rows).filter (fun v => decide (sy ≤ v ∧ v < rows - sy)) := by
    apply List.filter_congr
    intro r hr
    rw [decide_eq_decide]
    omega
  rw [hrow, range_filter_between rows sy (rows - sy) (Nat.sub_le _ _), List.flatMap_map]
  have h2 : rows - sy - sy = rows - 2 * sy := by omega
  have h3 : cols - sx - sx = cols - 2 * sx := by omega
  rw [h2, h3]

/-- Claim C7: window shape and traversal order.  Every window yielded by a
window slicer with semi-extent `(sx, sy)` has shape `(2*sy+1, 2*sx+1)`;
on the 6-row × 5-column test grid the first yielded window has shape 3×3;
the cursor visits exactly the interior cells, skipping the outermost
ring, in row-major order — the traversal equals the full row-major
traversal filtered to the interior — and on the test grid the indexed
traversal yields the literal `(x, y)` list of the test. -/
theorem c7_window_shape_order :
    (∀ (α : Type) [Inhabited α] (a : Array2 α) (r c sy sx : ℕ),
      (a.window r c sy sx).shape = (2 * sy + 1, 2 * sx + 1)) ∧
    ((windowIterItems [testLayer65, testLayer65, testLayer65] 6 5 1 1 (some [0])).head?.map
      Array2.shape) = some (3, 3) ∧
    (∀ rows cols sy sx : ℕ,
      windowIndices rows cols sy sx =
        (cellIndices rows cols).filter
          (fun rc => decide (sy ≤ rc.1 ∧ rc.1 + sy < rows ∧ sx ≤ rc.2 ∧ rc.2 + sx < cols))) ∧
    (windowIterIndices 3 6 5 1 1 (some [0])).map (fun t => (t.2.2, t.2.1)) =
      [(1, 1), (2, 1), (3, 1), (1, 2), (2, 2), (3, 2), (1, 3), (2, 3), (3, 3),
        (1, 4), (2, 4), (3, 4)] := by
  refine ⟨?_, by decide, windowIndices_eq_filter, by decide⟩
  intro α _ a r c sy sx
  rfl

/-- Claim C10 (implicit): Indexed decorator unwrap safety and agreement.
For any wrapped slicer state whose `index()` answers whenever its
`slice`/`slice_mut` answers on the given data — the invariant the
concrete slicers keep — `Indexed::slice` and `Indexed::slice_mut` never
panic (the internal `unwrap` is safe): they return `ok`, answering
exactly when the wrapped slicer answers, and yield the wrapped item
unchanged, augmented with the pair (current layer, current index). -/
theorem c10_indexed_safe {σ L α it itm : Type} (S : SlicerOps σ L α it itm)
    (s : IndexedState σ L) (data : Array2 α)
    (hinv : (S.slice s.slicer data).isSome = true → (S.index s.slicer).isSome = true)
    (hinvm : (S.sliceMut s.slicer data).isSome = true → (S.index s.slicer).isSome = true) :
    (∃ o, indexedSlice S s data = .ok o ∧
      (o.isSome = (S.slice s.slicer data).isSome) ∧
      ∀ item, S.slice s.slicer data = some item →
        ∃ i, S.index s.slicer = some i ∧ o = some ((s.layer, i), item)) ∧
    (∃ o, indexedSliceMut S s data = .ok o ∧
      (o.isSome = (S.sliceMut s.slicer data).isSome) ∧
      ∀ item, S.sliceMut s.slicer data = some item →
        ∃ i, S.index s.slicer = some i ∧ o = some ((s.layer, i), item)) := by
  constructor
  · cases hs : S.slice s.slicer data with
    | none =>
      refine ⟨none, ?_, by simp, ?_⟩
      · unfold indexedSlice
        rw [hs]
      · intro item hitem
        cases hitem
    | some item =>
      have hidx : (S.index s.slicer).isSome = true := hinv (by rw [hs]; rfl)
      cases hi : S.index s.slicer with
      | none =>
        rw [hi] at hidx
        cases hidx
      | some i =>
        refine ⟨some ((s.layer, i), item), ?_, by simp, ?_⟩
        · unfold indexedSlice
          rw [hs, hi]
        · intro item2 h2
          injection h2 with h2
          subst h2
          exact ⟨i, rfl, rfl⟩
  · cases hs : S.sliceMut s.slicer data with
    | none =>
      refine ⟨none, ?_, by simp, ?_⟩
      · unfold indexedSliceMut
        rw [hs]
      · intro item hitem
        cases hitem
    | some item =>
      have hidx : (S.index s.slicer).isSome = true := hinvm (by rw [hs]; rfl)
      cases hi : S.index s.slicer with
      | none =>
        rw [hi] at hidx
        cases hidx
      | some i =>
        refine ⟨some ((s.layer, i), item), ?_, by simp, ?_⟩
        · unfold indexedSliceMut
          rw [hs, hi]
        · intro item2 h2
          injection h2 with h2
          subst h2
          exact ⟨i, rfl, rfl⟩

/-- Witness for C10 at a concrete input: the single-cell slicer over a
2×2 array of naturals, wrapped with layer 0, cursor at the origin. -/
theorem c10_indexed_safe_witness :
    (∃ o, indexedSlice (cellsOps ℕ ℕ) ⟨⟨2, 2, (0, 0)⟩, 0⟩ ⟨2, 2, [10, 20, 30, 40]⟩ = .ok o ∧
      (o.isSome = ((cellsOps ℕ ℕ).slice ⟨2, 2, (0, 0)⟩ ⟨2, 2, [10, 20, 30, 40]⟩).isSome) ∧
      ∀ item, (cellsOps ℕ ℕ).slice ⟨2, 2, (0, 0)⟩ ⟨2, 2, [10, 20, 30, 40]⟩ = some item →
        ∃ i, (cellsOps ℕ ℕ).index ⟨2, 2, (0, 0)⟩ = some i ∧
          o = some ((0, i), item)) ∧
    (∃ o, indexedSliceMut (cellsOps ℕ ℕ) ⟨⟨2, 2, (0, 0)⟩, 0⟩ ⟨2, 2, [10, 20, 30, 40]⟩ = .ok o ∧
      (o.isSome = ((cellsOps ℕ ℕ).sliceMut ⟨2, 2, (0, 0)⟩ ⟨2, 2, [10, 20, 30, 40]⟩).isSome) ∧
      ∀ item, (cellsOps ℕ ℕ).sliceMut ⟨2, 2, (0, 0)⟩ ⟨2, 2, [10, 20, 30, 40]⟩ = some item →
        ∃ i, (cellsOps ℕ ℕ).index ⟨2, 2, (0, 0)⟩ = some i ∧
          o = some ((0, i), item)) :=
  c10_indexed_safe (cellsOps ℕ ℕ) ⟨⟨2, 2, (0, 0)⟩, 0⟩ ⟨2, 2, [10, 20, 30, 40]⟩
    (by intro _; decide) (by intro _; decide)

/-- Claim C9: snapshot round trip.  Converting a well-formed map to a
`CellMapFile` and converting the file back reproduces the map exactly —
bounds, cell size, rotation, translation, boundary precision and all
per-layer contents; a file whose data has a layer count different from
the layer set's count fails with `Error::WrongNumberOfLayers`; one whose
per-layer shape differs from the bounds' size fails with
`Error::LayerWrongShape`. -/
theorem c9_snapshot_round_trip :
    (∀ (α : Type) (numLayers : ℕ) (m : CellMap α),
      m.data.length = numLayers →
      (∀ a ∈ m.data, a.shape = m.params.cellBounds.shape) →
      intoCellMap numLayers (CellMapFile.new numLayers m) = .ok m) ∧
    (∀ (α : Type) (numLayers : ℕ) (f : CellMapFile α),
      f.data.length ≠ numLayers →
      intoCellMap numLayers f = .error (.wrongNumberOfLayers numLayers f.data.length)) ∧
    (∀ (α : Type) (numLayers : ℕ) (f : CellMapFile α),
      f.data.length = numLayers →
      (∃ a ∈ f.data, a.shape ≠ f.cellBounds.shape) →
      ∃ s, intoCellMap numLayers f = .error (.layerWrongShape f.cellBounds.shape s)) := by
  refine ⟨?_, ?_, ?_⟩
  · intro α numLayers m h1 h2
    unfold intoCellMap newFromData CellMapFile.new
    rw [if_neg (by simp [h1])]
    have hnone : m.data.find?
        (fun a => decide (a.shape ≠ m.params.cellBounds.shape)) = none := by
      rw [List.find?_eq_none]
      intro a ha
      simp [h2 a ha]
    simp only [hnone]
  · intro α numLayers f h1
    unfold intoCellMap newFromData
    rw [if_pos h1]
  · intro α numLayers f h1 hex
    unfold intoCellMap newFromData
    rw [if_neg (by simp [h1])]
    have hsome : (f.data.find?
        (fun a => decide (a.shape ≠ f.cellBounds.shape))).isSome = true := by
      rw [List.find?_isSome]
      obtain ⟨a, ha, hne⟩ := hex
      exact ⟨a, ha, by simpa using hne⟩
    obtain ⟨a, hfind⟩ := Option.isSome_iff_exists.mp hsome
    simp only [hfind]
    exact ⟨a.shape, rfl⟩

/-- Witness for C9 at concrete inputs: a 2-layer map of 1×1 arrays round
trips; a file carrying one layer instead of two fails with the layer
count error; a file whose second layer is 2×1 fails with the shape
error. -/
theorem c9_snapshot_round_trip_witness :
    ((⟨[⟨1, 1, [7]⟩, ⟨1, 1, [9]⟩], { CellMapParams.default with
        cellBounds := ⟨(0, 1), (0, 1)⟩ }⟩ : CellMap ℕ).data.length = 2 ∧
      intoCellMap 2 (CellMapFile.new 2 (⟨[⟨1, 1, [7]⟩, ⟨1, 1, [9]⟩],
        { CellMapParams.default with cellBounds := ⟨(0, 1), (0, 1)⟩ }⟩ : CellMap ℕ)) =
        .ok ⟨[⟨1, 1, [7]⟩, ⟨1, 1, [9]⟩], { CellMapParams.default with
          cellBounds := ⟨(0, 1), (0, 1)⟩ }⟩) ∧
    intoCellMap 2 (CellMapFile.new 1 (⟨[⟨1, 1, [7]⟩], { CellMapParams.default with
        cellBounds := ⟨(0, 1), (0, 1)⟩ }⟩ : CellMap ℕ)) =
      .error (.wrongNumberOfLayers 2 1) ∧
    ∃ s, intoCellMap 2 (⟨2, [0, 1], ⟨(0, 1), (0, 1)⟩, (1, 1), 0, (1, 0), (0, 0),
        ⟨1, 0, 0, 1, 0, 0⟩, [⟨1, 1, [7]⟩, ⟨2, 1, [1, 2]⟩]⟩ : CellMapFile ℕ) =
      .error (.layerWrongShape (1, 1) s) := by
  refine ⟨⟨rfl, ?_⟩, ?_, ?_⟩
  · exact c9_snapshot_round_trip.1 ℕ 2 _ rfl (by decide)
  · exact c9_snapshot_round_trip.2.1 ℕ 2 _ (by decide)
  · exact c9_snapshot_round_trip.2.2 ℕ 2 _ rfl ⟨⟨2, 1, [1, 2]⟩, by decide, by decide⟩
